import Mathlib

/-!
Verification development for the cronception computation core
(`src/backend/app/services/parser.py`, `src/backend/app/services/occurrences.py`,
`src/backend/app/schemas.py`).

Conventions of the embedding:
* Instants are UTC and are represented as `Nat`: seconds since
  2023-01-01T00:00:00Z (a Sunday).  All windows appearing in the repository's
  tests and in the spec's examples lie in 2024, well above zero, so natural
  subtraction of one second (`from_dt - 1`) agrees with the Python
  `from_dt - timedelta(seconds=1)` on every input considered here.
* The schedule expander (the external `croniter` library, which is not part of
  the repository sources) is modelled from the spec, section 4.2: a 5-field
  grammar, minute-resolution forward search strictly after the start instant,
  bounded by a four-year horizon, plus the fixed alias table.
* Python's stable `list.sort` is modelled by `List.insertionSort`, which has
  the same observable contract (a stable sort: sorted output, a permutation of
  the input, ties kept in input order).
-/

set_option maxRecDepth 20000

/-- Gregorian leap-year test. -/
def isLeapYear (y : Nat) : Bool :=
  y % 4 == 0 && (y % 100 != 0 || y % 400 == 0)

/-- Number of days in a Gregorian year. -/
def daysInYear (y : Nat) : Nat :=
  if isLeapYear y then 366 else 365

/-- Number of days in month `m` (1-12) of year `y`. -/
def daysInMonth (y m : Nat) : Nat :=
  if m == 2 then (if isLeapYear y then 29 else 28)
  else if m == 4 || m == 6 || m == 9 || m == 11 then 30
  else 31

/-- Resolve a day offset to a (year, day-of-year) pair, starting the scan at
year `y`.  `fuel` bounds the recursion; every step consumes at least 365 days,
so `d + 1` fuel is always sufficient. -/
def resolveYear : Nat → Nat → Nat → Nat × Nat
  | 0, y, d => (y, d)
  | fuel + 1, y, d =>
    if d < daysInYear y then (y, d) else resolveYear fuel (y + 1) (d - daysInYear y)

/-- Resolve a day-of-year offset to a (month, day-of-month-index) pair inside
year `y`, starting the scan at month `m`.  Twelve steps of fuel suffice. -/
def resolveMonth : Nat → Nat → Nat → Nat → Nat × Nat
  | 0, _, m, d => (m, d)
  | fuel + 1, y, m, d =>
    if d < daysInMonth y m then (m, d) else resolveMonth fuel y (m + 1) (d - daysInMonth y m)

/-- Calendar fields of an instant, as used by the cron matcher and by
`datetime.hour` / `datetime.weekday()` in `occurrences.py`. -/
structure DateParts where
  minute : Nat
  hour : Nat
  dom : Nat
  month : Nat
  /-- Day of week in cron convention: 0 = Sunday. -/
  dowCron : Nat
  /-- Day of week in Python `weekday()` convention: 0 = Monday. -/
  weekdayPy : Nat
deriving Repr, DecidableEq

/-- Epoch of the time scale: 2023-01-01T00:00:00Z, a Sunday. -/
def EPOCH_YEAR : Nat := 2023

/-- Split an instant into its calendar fields. -/
def dateParts (t : Nat) : DateParts :=
  let days := t / 86400
  let yd := resolveYear (days + 1) EPOCH_YEAR days
  let md := resolveMonth 12 yd.1 1 yd.2
  { minute := t / 60 % 60
    hour := t / 3600 % 24
    dom := md.2 + 1
    month := md.1
    dowCron := days % 7
    weekdayPy := (days + 6) % 7 }

/-- One comma-separated item of a cron field: `*`, `*/S`, `N`, `N-M`, `N/S`,
`N-M/S` (spec section 4.2 grammar). -/
inductive CronItem where
  | all : CronItem
  | allStep (s : Nat) : CronItem
  | num (n : Nat) : CronItem
  | range (a b : Nat) : CronItem
  | numStep (n s : Nat) : CronItem
  | rangeStep (a b s : Nat) : CronItem
deriving Repr, DecidableEq

/-- A parsed 5-field cron expression. -/
structure CronExpr where
  minute : List CronItem
  hour : List CronItem
  dom : List CronItem
  month : List CronItem
  dow : List CronItem
deriving Repr, DecidableEq

/-- Whitespace characters recognised by Python's `str.split` / `str.strip`. -/
def isPyWhitespace (c : Char) : Bool :=
  c == ' ' || c == '\t' || c == '\n' || c == '\r' || c == '\x0b' || c == '\x0c'

/-- Python `str.split(None, maxsplit)` on a character list: runs of whitespace
separate tokens, at most `n` splits are made, and the remainder after the last
split is kept verbatim (leading whitespace consumed).  `fuel` bounds the
recursion; each step consumes at least one character. -/
def pySplitGo : Nat → List Char → Nat → List (List Char)
  | 0, _, _ => []
  | fuel + 1, cs, n =>
    match cs.dropWhile isPyWhitespace with
    | [] => []
    | c :: rest =>
      if n = 0 then [c :: rest]
      else
        let tok := (c :: rest).takeWhile (fun a => !isPyWhitespace a)
        tok :: pySplitGo fuel ((c :: rest).drop tok.length) (n - 1)

/-- Python `s.split(None, maxsplit)`. -/
def pySplit (s : String) (maxsplit : Nat) : List String :=
  (pySplitGo (s.length + 1) s.toList maxsplit).map String.mk

/-- Python `s.split()` (unbounded whitespace split). -/
def pySplitAll (s : String) : List String :=
  pySplit s s.length

/-- Python `s.strip()` restricted to ASCII whitespace. -/
def pyStrip (s : String) : String :=
  String.mk (((s.toList.dropWhile isPyWhitespace).reverse.dropWhile isPyWhitespace).reverse)

/-- Split a character list on a single separator character, keeping empty
pieces (the semantics of Python's `str.split(sep)` for a one-character
separator). -/
def splitOnChar (sep : Char) : List Char → List (List Char)
  | [] => [[]]
  | c :: cs =>
    let r := splitOnChar sep cs
    if c == sep then [] :: r
    else
      match r with
      | [] => [[c]]
      | h :: t => (c :: h) :: t

/-- Parse a nonempty all-digit character list as a decimal number. -/
def charsToNat? (cs : List Char) : Option Nat :=
  if cs ≠ [] ∧ cs.all Char.isDigit then
    some (cs.foldl (fun acc c => acc * 10 + (c.toNat - 48)) 0)
  else none

/-- Parse a bare value or range (`N` or `N-M`) of a cron field whose value
range is `lo`-`hi`. -/
def parseBase (lo hi : Nat) (s : List Char) : Option CronItem :=
  match splitOnChar '-' s with
  | [a] =>
    match charsToNat? a with
    | some n => if lo ≤ n ∧ n ≤ hi then some (CronItem.num n) else none
    | none => none
  | [a, b] =>
    match charsToNat? a, charsToNat? b with
    | some n, some m =>
      if lo ≤ n ∧ n ≤ hi ∧ lo ≤ m ∧ m ≤ hi then some (CronItem.range n m) else none
    | _, _ => none
  | _ => none

/-- Parse one comma-separated item of a cron field. -/
def parseItem (lo hi : Nat) (s : List Char) : Option CronItem :=
  if s = ['*'] then some CronItem.all
  else
    match splitOnChar '/' s with
    | [body] => parseBase lo hi body
    | [body, step] =>
      match charsToNat? step with
      | none => none
      | some st =>
        if st = 0 then none
        else if body = ['*'] then some (CronItem.allStep st)
        else
          match parseBase lo hi body with
          | some (CronItem.num n) => some (CronItem.numStep n st)
          | some (CronItem.range a b) => some (CronItem.rangeStep a b st)
          | _ => none
    | _ => none

/-- Parse a whole cron field (a nonempty comma list of items). -/
def parseField (lo hi : Nat) (s : List Char) : Option (List CronItem) :=
  (splitOnChar ',' s).mapM (parseItem lo hi)

/-- Fixed alias expansion table (spec section 4.2); `@reboot` has no
expansion. -/
def alias_expansion : String → Option String
  | "@yearly" => some "0 0 1 1 *"
  | "@annually" => some "0 0 1 1 *"
  | "@monthly" => some "0 0 1 * *"
  | "@weekly" => some "0 0 * * 0"
  | "@daily" => some "0 0 * * *"
  | "@midnight" => some "0 0 * * *"
  | "@hourly" => some "0 * * * *"
  | _ => none

/-- Modelled from the spec: the schedule grammar of the external `croniter`
library (not part of the repository sources), per spec section 4.2.  A
schedule is an alias with an expansion, or exactly five whitespace-separated
fields, each a comma list of `*` / `N` / `N-M` / `*/S` / `N/S` / `N-M/S` with
in-range values (minute 0-59, hour 0-23, day-of-month 1-31, month 1-12,
day-of-week 0-7).  `@reboot` and anything else fails to parse. -/
def parse_cron_expr (s : String) : Option CronExpr :=
  let cs := (match alias_expansion s with | some e => e | none => s).toList
  match pySplitGo (cs.length + 1) cs cs.length with
  | [f1, f2, f3, f4, f5] =>
    match parseField 0 59 f1, parseField 0 23 f2, parseField 1 31 f3,
          parseField 1 12 f4, parseField 0 7 f5 with
    | some a, some b, some c, some d, some e => some ⟨a, b, c, d, e⟩
    | _, _, _, _, _ => none
  | _ => none

/-- Modelled from the spec: `croniter.is_valid` (spec section 4.2
`isValid`). -/
def is_valid (s : String) : Bool :=
  (parse_cron_expr s).isSome

/-- Does one item of a field with range `lo`-`hi` match value `v`? -/
def itemMatches (lo hi v : Nat) : CronItem → Bool
  | CronItem.all => true
  | CronItem.allStep st => (v - lo) % st == 0
  | CronItem.num n => v == n
  | CronItem.range a b => decide (a ≤ v) && decide (v ≤ b)
  | CronItem.numStep n st => decide (n ≤ v) && decide (v ≤ hi) && (v - n) % st == 0
  | CronItem.rangeStep a b st => decide (a ≤ v) && decide (v ≤ b) && (v - a) % st == 0

/-- Does a whole field match value `v`? -/
def fieldMatches (lo hi : Nat) (f : List CronItem) (v : Nat) : Bool :=
  f.any (itemMatches lo hi v)

/-- Is the field the literal `*` (unrestricted), for the day-of-month /
day-of-week OR rule? -/
def isStarField (f : List CronItem) : Bool :=
  f == [CronItem.all]

/-- Modelled from the spec: the minute-granularity match predicate of the
expander (spec section 4.2), including the OR combination of day-of-month and
day-of-week when both are restricted, and day-of-week 7 aliasing to 0. -/
def cronMatches (e : CronExpr) (t : Nat) : Bool :=
  let p := dateParts t
  fieldMatches 0 59 e.minute p.minute &&
  fieldMatches 0 23 e.hour p.hour &&
  fieldMatches 1 12 e.month p.month &&
  (let domOk := fieldMatches 1 31 e.dom p.dom
   let dowOk := fieldMatches 0 7 e.dow p.dowCron ||
     (p.dowCron == 0 && fieldMatches 0 7 e.dow 7)
   if isStarField e.dom then dowOk
   else if isStarField e.dow then domOk
   else domOk || dowOk)

/-- Bounded search horizon of the expander, in minutes (spec section 4.2:
"a bounded horizon, e.g. 4 years"). -/
def SEARCH_HORIZON : Nat := 4 * 366 * 1440

/-- Scan whole-minute candidates upward from `t`, at most `fuel` of them,
for the first match. -/
def nextMatchAux (e : CronExpr) : Nat → Nat → Option Nat
  | 0, _ => none
  | fuel + 1, t => if cronMatches e t then some t else nextMatchAux e fuel (t + 60)

/-- Modelled from the spec: `next(schedule, after)` of the expander (spec
section 4.2) — the earliest whole-minute instant strictly after `after` that
matches, `none` when the bounded horizon is exceeded. -/
def get_next (e : CronExpr) (after : Nat) : Option Nat :=
  nextMatchAux e SEARCH_HORIZON (60 * (after / 60 + 1))

/-- Safety cap `_PER_JOB_MAX` of `occurrences.py`: max occurrences generated
per job before stopping. -/
def PER_JOB_MAX : Nat := 50000

/-- The generation loop of `_iter_schedule`: repeatedly take `get_next`,
stopping when the match exceeds `toS`, when the horizon is exhausted, or when
`fuel` (initially `PER_JOB_MAX`) occurrences have been produced. -/
def iterLoop (e : CronExpr) (toS : Nat) : Nat → Nat → List Nat
  | 0, _ => []
  | fuel + 1, cur =>
    match get_next e cur with
    | none => []
    | some t => if toS < t then [] else t :: iterLoop e toS fuel t

/-- `_iter_schedule(schedule, from_dt, to_dt)` of `occurrences.py`: occurrence
instants of a schedule string in `[from_dt, to_dt]`, starting the iteration
one second before `from_dt`; an invalid schedule yields nothing (the
`ValueError`/`KeyError` handler). -/
def iter_schedule (s : String) (fromS toS : Nat) : List Nat :=
  match parse_cron_expr s with
  | none => []
  | some e => iterLoop e toS PER_JOB_MAX (fromS - 1)

/-- 2024-01-01T00:00:00Z on this time scale (2023 has 365 days). -/
def JAN1_2024 : Nat := 365 * 86400

/-- ParsedJob record.  The first six fields are translated from
`schemas.py`.  Modelled from the spec: the `description` field (optional
preceding comment text), declared in the spec's data model and read by
`occurrences.py` when building occurrence records, is missing from
`schemas.py`'s ParsedJob (see `ParsedJobSrc` and claim C1); it is included
here as the evident intent, and the parser always leaves it `none`. -/
structure ParsedJob where
  line_number : Nat
  raw_line : String
  schedule : String
  command : String
  enabled : Bool
  error : Option String
  description : Option String
deriving Repr, DecidableEq

/-- ParsedJob exactly as declared in `schemas.py`: no `description` field. -/
structure ParsedJobSrc where
  line_number : Nat
  raw_line : String
  schedule : String
  command : String
  enabled : Bool
  error : Option String
deriving Repr, DecidableEq

/-- One occurrence record as built by `occurrences_for_window` (the Python
dict with keys schedule / command / enabled / at / description).  The `at`
key is spelled `at'` because `at` is reserved in Lean. -/
structure Occurrence where
  schedule : String
  command : String
  enabled : Bool
  at' : Nat
  description : Option String
deriving Repr, DecidableEq

/-- The timestamp order used to sort occurrence pairs (`pairs.sort(key=lambda
x: x[0])` in the source). -/
instance : DecidableRel (fun (a b : Nat × Occurrence) => a.1 ≤ b.1) :=
  fun a b => Nat.decLe a.1 b.1

/-- The `(hour, day)` lexicographic key order used by
`sorted(counts.items())`. -/
instance : DecidableRel (fun (a b : Nat × Nat) =>
    a.1 < b.1 ∨ (a.1 = b.1 ∧ a.2 ≤ b.2)) :=
  fun a b => by dsimp only; infer_instance

/-- `_eligible_jobs(jobs, include_disabled)` of `occurrences.py`: keep jobs
with (`include_disabled` or `enabled`), no `error`, and a schedule outside
`_SKIP_SCHEDULES = {"@reboot"}`. -/
def eligible_jobs (jobs : List ParsedJob) (include_disabled : Bool) : List ParsedJob :=
  jobs.filter fun j =>
    (include_disabled || j.enabled) && j.error == none && j.schedule != "@reboot"

/-- `_NOISY_THRESHOLD` of `occurrences.py`: runs per day above which a
schedule counts as noisy. -/
def NOISY_THRESHOLD : Nat := 5

/-- `_NOISY_TEST_FROM`: 2024-01-01T00:00:00Z. -/
def NOISY_TEST_FROM : Nat := JAN1_2024

/-- `_NOISY_TEST_TO`: 2024-01-03T00:00:00Z (2 days later). -/
def NOISY_TEST_TO : Nat := JAN1_2024 + 2 * 86400

/-- `_is_noisy(schedule)` of `occurrences.py`: count the schedule's matches in
the fixed reference window; noisy iff `count / days > _NOISY_THRESHOLD`, with
`days = (_NOISY_TEST_TO - _NOISY_TEST_FROM).days = 2`.  Python evaluates
`count / days` by true division, exact for these magnitudes; since
`days > 0`, the comparison is equivalent to `count > _NOISY_THRESHOLD * days`,
the form used here so that the kernel can evaluate it (`ℚ` division does not
kernel-reduce).  The equivalence with the spec's rational formula
`count / 2 > 5` is proved in the claim C4 theorem below. -/
def is_noisy (s : String) : Bool :=
  let days := (NOISY_TEST_TO - NOISY_TEST_FROM) / 86400
  let count := (iter_schedule s NOISY_TEST_FROM NOISY_TEST_TO).length
  decide (count > NOISY_THRESHOLD * days)

/-- The distinct noisy schedule strings among a job list, in first-occurrence
order: the Python set `{j.schedule for j in eligible if _is_noisy(j.schedule)}`. -/
def noisy_schedules (eligible : List ParsedJob) : List String :=
  ((eligible.filter fun j => is_noisy j.schedule).map (fun j => j.schedule)).dedup

/-- The `if hide_noisy:` block shared verbatim by `occurrences_for_window`
and `heatmap_for_window`: the surviving jobs and the count of distinct noisy
schedules. -/
def apply_noisy_filter (eligible : List ParsedJob) (hide_noisy : Bool) :
    List ParsedJob × Nat :=
  if hide_noisy then
    let noisy := noisy_schedules eligible
    (eligible.filter fun j => !(noisy.contains j.schedule), noisy.length)
  else (eligible, 0)

/-- The merged `(timestamp, occurrence-record)` pair list built by the
generation loop of `occurrences_for_window`, in job order. -/
def occ_pairs (jobs : List ParsedJob) (from_dt to_dt : Nat)
    (include_disabled hide_noisy : Bool) : List (Nat × Occurrence) :=
  let eligible := (apply_noisy_filter (eligible_jobs jobs include_disabled) hide_noisy).1
  eligible.flatMap fun j =>
    (iter_schedule j.schedule from_dt to_dt).map fun dt =>
      (dt, { schedule := j.schedule, command := j.command, enabled := j.enabled,
             at' := dt, description := j.description })

/-- `occurrences_for_window` of `occurrences.py` (the resolved window is
passed explicitly; `_ensure_utc` and the `[now, now+30d)` default window are
identities in this UTC-only embedding).  Returns
`(from_dt, to_dt, occurrences, filtered_noisy_count)`. -/
def occurrences_for_window (jobs : List ParsedJob) (from_dt to_dt : Nat)
    (limit : Nat) (include_disabled hide_noisy : Bool) :
    Nat × Nat × List Occurrence × Nat :=
  let filtered_noisy_count := (apply_noisy_filter (eligible_jobs jobs include_disabled) hide_noisy).2
  let pairs := occ_pairs jobs from_dt to_dt include_disabled hide_noisy
  let sorted := pairs.insertionSort fun a b => a.1 ≤ b.1
  (from_dt, to_dt, (sorted.take limit).map (fun p => p.2), filtered_noisy_count)

/-- One heatmap cell, as in `heatmap_for_window`. -/
structure HeatmapCell where
  hour : Nat
  day : Nat
  count : Nat
deriving Repr, DecidableEq

/-- The `(hour, weekday)` key of one occurrence instant (`dt.hour`,
`dt.weekday()` with Monday = 0). -/
def heat_key (dt : Nat) : Nat × Nat :=
  ((dateParts dt).hour, (dateParts dt).weekdayPy)

/-- The multiset of `(hour, weekday)` keys counted by `heatmap_for_window`,
in generation order. -/
def heat_keys (jobs : List ParsedJob) (from_dt to_dt : Nat)
    (include_disabled hide_noisy : Bool) : List (Nat × Nat) :=
  let eligible := (apply_noisy_filter (eligible_jobs jobs include_disabled) hide_noisy).1
  eligible.flatMap fun j =>
    (iter_schedule j.schedule from_dt to_dt).map heat_key

/-- `heatmap_for_window` of `occurrences.py`: cells are the distinct keys with
their counts, sorted by `(hour, day)` as Python's `sorted(counts.items())`
does; `max_count` is the largest cell count, `0` when there are no cells.
Returns `(from_dt, to_dt, cells, max_count, filtered_noisy_count)`. -/
def heatmap_for_window (jobs : List ParsedJob) (from_dt to_dt : Nat)
    (include_disabled hide_noisy : Bool) :
    Nat × Nat × List HeatmapCell × Nat × Nat :=
  let filtered_noisy_count := (apply_noisy_filter (eligible_jobs jobs include_disabled) hide_noisy).2
  let keys := heat_keys jobs from_dt to_dt include_disabled hide_noisy
  let sortedKeys := keys.dedup.insertionSort fun a b =>
    a.1 < b.1 ∨ (a.1 = b.1 ∧ a.2 ≤ b.2)
  let cells := sortedKeys.map fun k => HeatmapCell.mk k.1 k.2 (keys.count k)
  let max_count := (cells.map (fun c => c.count)).foldr max 0
  (from_dt, to_dt, cells, max_count, filtered_noisy_count)

/-- The frozenset `_ALIASES` of `parser.py`. -/
def ALIASES : List String :=
  ["@yearly", "@annually", "@monthly", "@weekly", "@daily", "@midnight", "@hourly", "@reboot"]

/-- Python `s.lower()` restricted to ASCII letters (every alias is ASCII). -/
def asciiLower (s : String) : String :=
  String.mk (s.toList.map fun c => if 'A' ≤ c ∧ c ≤ 'Z' then Char.ofNat (c.toNat + 32) else c)

/-- A single-quote character, used when assembling diagnostic strings. -/
def quoteChar : String := String.mk [Char.ofNat 39]

/-- `_is_env_var(line)` of `parser.py`: the anchored regex
`[A-Za-z_][A-Za-z0-9_]*` followed by optional whitespace and `=`. -/
def is_env_var (s : String) : Bool :=
  match s.toList with
  | [] => false
  | c :: cs =>
    (c.isAlpha || c == '_') &&
      ((cs.dropWhile fun a => a.isAlphanum || a == '_').dropWhile
          isPyWhitespace).head? == some '='

/-- `_validate_schedule(schedule)` of `parser.py`: `@reboot` passes, otherwise
an invalid schedule yields the diagnostic `Invalid cron expression: <q>...<q>`. -/
def validate_schedule (s : String) : Option String :=
  if s = "@reboot" then none
  else if !(is_valid s) then some ("Invalid cron expression: " ++ quoteChar ++ s ++ quoteChar)
  else none

/-- `_try_parse_cron_line(text)` of `parser.py`: an alias line (first token,
lowercased, in `_ALIASES`) or a 5-plus-field line; anything else is not a cron
line. -/
def try_parse_cron_line (text : String) : Option (String × String) :=
  let text := pyStrip text
  if text = "" then none
  else
    match pySplit text 1 with
    | [] => none
    | first :: rest =>
      if first.toList.head? == some '@' && ALIASES.contains (asciiLower first) then
        some (asciiLower first, match rest with | [] => "" | r :: _ => pyStrip r)
      else
        let parts := pySplit text 5
        if parts.length ≥ 5 then
          some (String.intercalate " " (parts.take 5),
                match parts.drop 5 with | [] => "" | r :: _ => pyStrip r)
        else none

/-- Line-boundary characters of Python `str.splitlines`. -/
def isLineBreak (c : Char) : Bool :=
  c == '\n' || c == '\r' || c == '\x0b' || c == '\x0c' || c == '\x1c' ||
  c == '\x1d' || c == '\x1e' || c == '\x85' || c == '\u2028' || c == '\u2029'

/-- Python `str.splitlines` on a character list (`\r\n` counts as one
boundary; no trailing empty line). -/
def splitlinesAux : List Char → List Char → List (List Char)
  | [], acc => if acc = [] then [] else [acc.reverse]
  | '\r' :: '\n' :: cs, acc => acc.reverse :: splitlinesAux cs []
  | c :: cs, acc =>
    if isLineBreak c then acc.reverse :: splitlinesAux cs []
    else splitlinesAux cs (c :: acc)

/-- Python `raw_text.splitlines()`. -/
def py_splitlines (s : String) : List String :=
  (splitlinesAux s.toList []).map String.mk

/-- The loop body of `parse_crontab` for one physical line: the jobs and
warnings this line contributes (each at most one). -/
def parse_line (i : Nat) (line : String) : List ParsedJob × List String :=
  let stripped := pyStrip line
  if stripped = "" then ([], [])
  else if is_env_var stripped then ([], [])
  else if stripped.toList.head? == some '#' then
    let inner := pyStrip (String.mk (stripped.toList.dropWhile (fun c => c == '#')))
    match try_parse_cron_line inner with
    | none => ([], [])
    | some (schedule, command) =>
      if schedule != "@reboot" && !(is_valid schedule) then ([], [])
      else ([⟨i, line, schedule, command, false, none, none⟩], [])
  else
    match try_parse_cron_line stripped with
    | none => ([], ["Line " ++ toString i ++ ": unrecognised format, skipped"])
    | some (schedule, command) =>
      match validate_schedule schedule with
      | some err =>
        ([⟨i, line, schedule, command, true, some err, none⟩],
         ["Line " ++ toString i ++ ": " ++ err])
      | none => ([⟨i, line, schedule, command, true, none, none⟩], [])

/-- The result record of `parse_crontab` (`CrontabParseResult` in
`schemas.py`). -/
structure CrontabParseResult where
  jobs : List ParsedJob
  warnings : List String
deriving Repr, DecidableEq

/-- `parse_crontab(raw_text)` of `parser.py`: fold the per-line contributions
over the 1-based enumeration of the physical lines. -/
def parse_crontab (raw_text : String) : CrontabParseResult :=
  let lines := (py_splitlines raw_text).enumFrom 1
  { jobs := lines.flatMap fun p => (parse_line p.1 p.2).1
    warnings := lines.flatMap fun p => (parse_line p.1 p.2).2 }

/-- Pydantic attribute access `job.description` on the ParsedJob actually
declared in `schemas.py`: no such field exists there, so the access raises
`AttributeError`; modelled as `Except.error`. -/
def getattr_description (_j : ParsedJobSrc) : Except String (Option String) :=
  Except.error ("AttributeError: " ++ quoteChar ++ "ParsedJob" ++ quoteChar ++
    " object has no attribute " ++ quoteChar ++ "description" ++ quoteChar)

/-- `occurrences_for_window` as it behaves on the record type actually
declared in `schemas.py` (`ParsedJobSrc`): building each occurrence record
reads `job.description`, which raises, so the call fails as soon as at least
one eligible job yields at least one instant in the window. -/
def occurrences_for_window_src (jobs : List ParsedJobSrc) (from_dt to_dt : Nat)
    (limit : Nat) (include_disabled hide_noisy : Bool) :
    Except String (Nat × Nat × List Occurrence × Nat) := do
  let eligible := jobs.filter fun j =>
    (include_disabled || j.enabled) && j.error == none && j.schedule != "@reboot"
  let noisy := if hide_noisy then
      ((eligible.filter fun j => is_noisy j.schedule).map fun j => j.schedule).dedup
    else []
  let filtered_noisy_count := noisy.length
  let remaining := if hide_noisy then
      eligible.filter (fun j => !(noisy.contains j.schedule))
    else eligible
  let pairs ← (remaining.flatMap fun j =>
      (iter_schedule j.schedule from_dt to_dt).map fun dt => (j, dt)).mapM
    fun p => do
      let d ← getattr_description p.1
      pure (p.2, ({ schedule := p.1.schedule, command := p.1.command,
                    enabled := p.1.enabled, at' := p.2, description := d } : Occurrence))
  let sorted := pairs.insertionSort fun a b => a.1 ≤ b.1
  pure (from_dt, to_dt, (sorted.take limit).map fun p => p.2, filtered_noisy_count)

/-- The parsed form of the every-minute expression. -/
def starExpr : CronExpr :=
  ⟨[CronItem.all], [CronItem.all], [CronItem.all], [CronItem.all], [CronItem.all]⟩

/-! ### Sanity checks of the embedding -/

theorem dateParts_jan1_2024 : dateParts JAN1_2024 =
    { minute := 0, hour := 0, dom := 1, month := 1, dowCron := 1, weekdayPy := 0 } := by
  decide

theorem iter_schedule_hourly_example :
    iter_schedule "0 * * * *" (JAN1_2024 + 30) (JAN1_2024 + 3630) = [JAN1_2024 + 3600] := by
  decide

theorem iter_schedule_star_example :
    (iter_schedule "* * * * *" (JAN1_2024 + 30) (JAN1_2024 + 3630)).length = 60 := by
  decide

theorem parse_star : parse_cron_expr "* * * * *" = some starExpr := by decide

/-- The every-minute expression matches every instant. -/
theorem cronMatches_star (t : Nat) : cronMatches starExpr t = true := by
  simp [cronMatches, fieldMatches, itemMatches, isStarField, starExpr]

/-- For the every-minute expression, `get_next` returns the first whole
minute strictly after `after`. -/
theorem get_next_star (after : Nat) :
    get_next starExpr after = some (60 * (after / 60 + 1)) := by
  have h : SEARCH_HORIZON = 2108159 + 1 := by decide
  rw [get_next, h]
  simp [nextMatchAux, cronMatches_star]

/-- Closed form of the generation loop for the every-minute expression: the
whole minutes strictly after `cur` and at most `toS`, capped by the fuel. -/
theorem iterLoop_star (toS : Nat) :
    ∀ (fuel : Nat) (cur : Nat),
      iterLoop starExpr toS fuel cur =
        (List.range' (cur / 60 + 1) (min fuel (toS / 60 + 1 - (cur / 60 + 1)))).map
          (fun m => 60 * m)
  | 0, cur => by simp [iterLoop]
  | fuel + 1, cur => by
    rw [iterLoop, get_next_star]
    dsimp only
    by_cases h : toS < 60 * (cur / 60 + 1)
    · rw [if_pos h]
      have hz : toS / 60 + 1 - (cur / 60 + 1) = 0 := by omega
      simp [hz]
    · rw [if_neg h]
      have hle : cur / 60 + 1 ≤ toS / 60 := by omega
      rw [iterLoop_star toS fuel (60 * (cur / 60 + 1))]
      have hq : 60 * (cur / 60 + 1) / 60 = cur / 60 + 1 :=
        Nat.mul_div_cancel_left _ (by norm_num)
      rw [hq]
      have hn : min (fuel + 1) (toS / 60 + 1 - (cur / 60 + 1)) =
          min fuel (toS / 60 + 1 - (cur / 60 + 1 + 1)) + 1 := by omega
      rw [hn, List.range'_succ]
      simp

/-- Occurrence count of the every-minute schedule over an arbitrary window. -/
theorem iter_schedule_star_length (fromS toS : Nat) :
    (iter_schedule "* * * * *" fromS toS).length =
      min PER_JOB_MAX (toS / 60 + 1 - ((fromS - 1) / 60 + 1)) := by
  rw [iter_schedule, parse_star]
  dsimp only
  rw [iterLoop_star]
  simp

theorem is_noisy_star : is_noisy "* * * * *" = true := by
  have h : (iter_schedule "* * * * *" NOISY_TEST_FROM NOISY_TEST_TO).length = 2881 := by
    rw [iter_schedule_star_length]
    decide
  simp only [is_noisy, h]
  decide

/-! ### General bounds of the per-job enumeration -/

/-- The forward search never returns an instant below its starting
candidate. -/
theorem nextMatchAux_le {e : CronExpr} :
    ∀ (fuel : Nat) {t u : Nat}, nextMatchAux e fuel t = some u → t ≤ u := by
  intro fuel
  induction fuel with
  | zero => intro t u h; simp [nextMatchAux] at h
  | succ n ih =>
    intro t u h
    rw [nextMatchAux] at h
    split at h
    · exact Nat.le_of_eq (Option.some.inj h)
    · exact Nat.le_trans (by omega) (ih h)

/-- `get_next` returns an instant strictly after its argument. -/
theorem get_next_lt {e : CronExpr} {cur u : Nat} (h : get_next e cur = some u) :
    cur < u := by
  have h1 := nextMatchAux_le SEARCH_HORIZON h
  have h2 : cur < 60 * (cur / 60 + 1) := by omega
  omega

/-- Every instant produced by the generation loop lies strictly after the
loop's start and at most at the window's upper edge. -/
theorem iterLoop_mem {e : CronExpr} {toS : Nat} :
    ∀ (fuel : Nat) {cur t : Nat}, t ∈ iterLoop e toS fuel cur → cur < t ∧ t ≤ toS := by
  intro fuel
  induction fuel with
  | zero => intro cur t h; simp [iterLoop] at h
  | succ n ih =>
    intro cur t h
    rw [iterLoop] at h
    split at h
    · simp at h
    · rename_i t0 hnext
      split at h
      · simp at h
      · rename_i hle
        rcases List.mem_cons.mp h with rfl | hmem
        · exact ⟨get_next_lt hnext, by omega⟩
        · have := ih hmem
          have := get_next_lt hnext
          omega

/-- Claim C10, part (a) machinery: bounds of `_iter_schedule`. -/
theorem iter_schedule_mem {s : String} {fromS toS t : Nat}
    (h : t ∈ iter_schedule s fromS toS) : fromS - 1 < t ∧ t ≤ toS := by
  rw [iter_schedule] at h
  split at h
  · simp at h
  · exact iterLoop_mem PER_JOB_MAX h

/-! ### Provenance of occurrence records -/

/-- Each merged pair comes from a surviving job and one of its enumerated
instants, and its record copies that job's fields. -/
theorem mem_occ_pairs {p : Nat × Occurrence} {jobs : List ParsedJob}
    {f t : Nat} {incl hide : Bool} (h : p ∈ occ_pairs jobs f t incl hide) :
    ∃ j, j ∈ (apply_noisy_filter (eligible_jobs jobs incl) hide).1 ∧
      p.1 ∈ iter_schedule j.schedule f t ∧
      p.2 = ⟨j.schedule, j.command, j.enabled, p.1, j.description⟩ := by
  unfold occ_pairs at h
  simp only [List.mem_flatMap, List.mem_map] at h
  obtain ⟨j, hj, dt, hdt, rfl⟩ := h
  exact ⟨j, hj, hdt, rfl⟩

/-- Every returned occurrence record is the snapshot of some merged pair. -/
theorem mem_occurrences {o : Occurrence} {jobs : List ParsedJob}
    {f t lim : Nat} {incl hide : Bool}
    (h : o ∈ (occurrences_for_window jobs f t lim incl hide).2.2.1) :
    ∃ p, p ∈ occ_pairs jobs f t incl hide ∧ o = p.2 := by
  unfold occurrences_for_window at h
  simp only [List.mem_map] at h
  obtain ⟨p, hp, rfl⟩ := h
  have hp2 : p ∈ (occ_pairs jobs f t incl hide).insertionSort
      (fun a b => a.1 ≤ b.1) := List.mem_of_mem_take hp
  exact ⟨p, (List.perm_insertionSort _ _).mem_iff.mp hp2, rfl⟩

/-- The noisy filter only discards jobs: survivors belong to the eligible
list. -/
theorem apply_noisy_filter_subset {l : List ParsedJob} {hide : Bool} {j : ParsedJob}
    (h : j ∈ (apply_noisy_filter l hide).1) : j ∈ l := by
  unfold apply_noisy_filter at h
  split at h
  · exact List.mem_of_mem_filter h
  · exact h

/-! ### Claim theorems -/

/-- C1: the claim says every occurrence record carries the source job's
`description` field.  On the record type actually declared in `schemas.py`
(`ParsedJobSrc`, which has no `description` field), `occurrences_for_window`
instead raises `AttributeError` as soon as one enabled, error-free job
produces one instant in the window, because the record construction reads the
missing attribute.  Evaluated here at a single enabled `* * * * *` job over a
one-hour window. -/
theorem spec_c1 :
    occurrences_for_window_src
        [⟨1, "* * * * * /cmd", "* * * * *", "/cmd", true, none⟩]
        (JAN1_2024 + 30) (JAN1_2024 + 3630) 500 false false =
      Except.error ("AttributeError: " ++ quoteChar ++ "ParsedJob" ++ quoteChar ++
        " object has no attribute " ++ quoteChar ++ "description" ++ quoteChar) := by
  rfl

/-- C4: the noisy classifier is a function of the schedule string alone:
`is_noisy s` holds iff the number of matches of `s` in the fixed reference
window 2024-01-01T00:00Z to 2024-01-03T00:00Z, divided by 2, exceeds 5
(rational arithmetic, as Python's exact true division); and the request
window plays no role: the `filteredNoisyCount` returned by both
`occurrences_for_window` and `heatmap_for_window` is independent of the
window and of the limit. -/
theorem spec_c4 :
    (∀ s : String, is_noisy s = true ↔
        ((iter_schedule s NOISY_TEST_FROM NOISY_TEST_TO).length : ℚ) / 2 > 5) ∧
    (∀ (jobs : List ParsedJob) (f t f2 t2 lim lim2 : Nat) (incl hide : Bool),
        (occurrences_for_window jobs f t lim incl hide).2.2.2 =
          (occurrences_for_window jobs f2 t2 lim2 incl hide).2.2.2) ∧
    (∀ (jobs : List ParsedJob) (f t f2 t2 : Nat) (incl hide : Bool),
        (heatmap_for_window jobs f t incl hide).2.2.2.2 =
          (heatmap_for_window jobs f2 t2 incl hide).2.2.2.2) := by
  refine ⟨?_, fun _ _ _ _ _ _ _ _ _ => by simp only [occurrences_for_window],
    fun _ _ _ _ _ _ _ => by simp only [heatmap_for_window]⟩
  intro s
  have h2 : (NOISY_TEST_TO - NOISY_TEST_FROM) / 86400 = 2 := by
    norm_num [NOISY_TEST_TO, NOISY_TEST_FROM]
  simp only [is_noisy, h2, NOISY_THRESHOLD, decide_eq_true_eq]
  have hq : (((iter_schedule s NOISY_TEST_FROM NOISY_TEST_TO).length : ℚ) / 2 > 5) ↔
      ((10 : ℚ) < ((iter_schedule s NOISY_TEST_FROM NOISY_TEST_TO).length : ℚ)) := by
    rw [gt_iff_lt, lt_div_iff₀ (by norm_num : (0 : ℚ) < 2)]
    norm_num
  rw [hq]
  constructor
  · intro h; exact_mod_cast h
  · intro h; exact_mod_cast h

/-- C10: every instant produced by the per-job enumeration satisfies
`resolvedFrom - 1 < t` and `t ≤ resolvedTo`; hence every occurrence returned
by `occurrences_for_window` lies in those bounds.  The window is inclusive at
both ends: for the hourly schedule over a window whose edges are exact hour
boundaries, the matches falling exactly on `resolvedFrom` and exactly on
`resolvedTo` are both included. -/
theorem spec_c10 :
    (∀ (s : String) (fromS toS t : Nat), t ∈ iter_schedule s fromS toS →
        fromS - 1 < t ∧ t ≤ toS) ∧
    (∀ (jobs : List ParsedJob) (f t lim : Nat) (incl hide : Bool) (o : Occurrence),
        o ∈ (occurrences_for_window jobs f t lim incl hide).2.2.1 →
        f - 1 < o.at' ∧ o.at' ≤ t) ∧
    iter_schedule "0 * * * *" (JAN1_2024 + 3600) (JAN1_2024 + 3 * 3600) =
      [JAN1_2024 + 3600, JAN1_2024 + 2 * 3600, JAN1_2024 + 3 * 3600] := by
  refine ⟨fun s fromS toS t h => iter_schedule_mem h, ?_, by decide⟩
  intro jobs f t lim incl hide o ho
  obtain ⟨p, hp, rfl⟩ := mem_occurrences ho
  obtain ⟨j, _, hdt, hrec⟩ := mem_occ_pairs hp
  have hb := iter_schedule_mem hdt
  rw [hrec]
  exact hb

/-- C10 witness: the hourly schedule over the window bounded by exact hour
marks includes the match falling exactly on the lower bound, and the general
bounds hold for it. -/
theorem spec_c10_witness :
    (JAN1_2024 + 3600) ∈ iter_schedule "0 * * * *" (JAN1_2024 + 3600) (JAN1_2024 + 3 * 3600) ∧
    (JAN1_2024 + 3600 - 1 < JAN1_2024 + 3600 ∧ JAN1_2024 + 3600 ≤ JAN1_2024 + 3 * 3600) :=
  ⟨by decide,
   spec_c10.1 "0 * * * *" (JAN1_2024 + 3600) (JAN1_2024 + 3 * 3600) (JAN1_2024 + 3600)
     (by decide)⟩

/-- C3: a job is kept by `_eligible_jobs` iff it is in the input list,
(`enabled` or `includeDisabled`) holds, its `error` is unset and its schedule
is not `@reboot`; with `includeDisabled = false` every returned occurrence
stems from an enabled, error-free, non-`@reboot` job of the input; and when no
job is eligible both the occurrence list and the heatmap cells are empty. -/
theorem spec_c3 :
    (∀ (jobs : List ParsedJob) (incl : Bool) (j : ParsedJob),
        j ∈ eligible_jobs jobs incl ↔
          j ∈ jobs ∧ (j.enabled = true ∨ incl = true) ∧ j.error = none ∧
            j.schedule ≠ "@reboot") ∧
    (∀ (jobs : List ParsedJob) (f t lim : Nat) (hide : Bool) (o : Occurrence),
        o ∈ (occurrences_for_window jobs f t lim false hide).2.2.1 →
        ∃ j, j ∈ jobs ∧ j.enabled = true ∧ j.error = none ∧ j.schedule ≠ "@reboot" ∧
          o.schedule = j.schedule ∧ o.command = j.command ∧ o.enabled = j.enabled) ∧
    (∀ (jobs : List ParsedJob) (f t lim : Nat) (incl hide : Bool),
        eligible_jobs jobs incl = [] →
        (occurrences_for_window jobs f t lim incl hide).2.2.1 = [] ∧
        (heatmap_for_window jobs f t incl hide).2.2.1 = []) := by
  refine ⟨?_, ?_, ?_⟩
  · intro jobs incl j
    simp only [eligible_jobs, List.mem_filter, Bool.and_eq_true, Bool.or_eq_true,
      beq_iff_eq, bne_iff_ne]
    tauto
  · intro jobs f t lim hide o ho
    obtain ⟨p, hp, rfl⟩ := mem_occurrences ho
    obtain ⟨j, hj, hdt, hrec⟩ := mem_occ_pairs hp
    have hj2 := apply_noisy_filter_subset hj
    simp only [eligible_jobs, List.mem_filter, Bool.and_eq_true, Bool.or_eq_true,
      beq_iff_eq, bne_iff_ne, and_assoc, Bool.false_eq_true, false_or] at hj2
    obtain ⟨hmem, hen, herr, hsched⟩ := hj2
    exact ⟨j, hmem, hen, herr, hsched, by rw [hrec], by rw [hrec], by rw [hrec]⟩
  · intro jobs f t lim incl hide h
    have hfil : (apply_noisy_filter (eligible_jobs jobs incl) hide).1 = [] := by
      unfold apply_noisy_filter
      split
      · rw [h]; rfl
      · exact h
    constructor
    · simp [occurrences_for_window, occ_pairs, hfil]
    · simp [heatmap_for_window, heat_keys, hfil]

/-- C3 witness: a single enabled hourly job over a one-hour window yields an
occurrence, which indeed stems from that job. -/
theorem spec_c3_witness :
    ((⟨"0 * * * *", "/hourly", true, JAN1_2024 + 3600, none⟩ : Occurrence) ∈
      (occurrences_for_window
        [⟨1, "0 * * * * /hourly", "0 * * * *", "/hourly", true, none, none⟩]
        (JAN1_2024 + 30) (JAN1_2024 + 3630) 500 false false).2.2.1) ∧
    (∃ j, j ∈ [(⟨1, "0 * * * * /hourly", "0 * * * *", "/hourly", true, none, none⟩ : ParsedJob)] ∧
      j.enabled = true ∧ j.error = none ∧ j.schedule ≠ "@reboot" ∧
      (⟨"0 * * * *", "/hourly", true, JAN1_2024 + 3600, none⟩ : Occurrence).schedule = j.schedule ∧
      (⟨"0 * * * *", "/hourly", true, JAN1_2024 + 3600, none⟩ : Occurrence).command = j.command ∧
      (⟨"0 * * * *", "/hourly", true, JAN1_2024 + 3600, none⟩ : Occurrence).enabled = j.enabled) :=
  ⟨by decide,
   spec_c3.2.1 [⟨1, "0 * * * * /hourly", "0 * * * *", "/hourly", true, none, none⟩]
     (JAN1_2024 + 30) (JAN1_2024 + 3630) 500 false
     ⟨"0 * * * *", "/hourly", true, JAN1_2024 + 3600, none⟩ (by decide)⟩

/-- The every-minute enumeration over a one-hour window offset 30 seconds
past the minute boundary `60 * k`: the 60 whole minutes `60*(k+1)`, ...,
`60*(k+60)`. -/
theorem iter_schedule_star_window (k : Nat) :
    iter_schedule "* * * * *" (60 * k + 30) (60 * k + 3630) =
      (List.range' (k + 1) 60).map (fun m => 60 * m) := by
  rw [iter_schedule, parse_star]
  dsimp only
  rw [iterLoop_star]
  have h1 : (60 * k + 30 - 1) / 60 = k := by omega
  have h2 : (60 * k + 3630) / 60 = k + 60 := by omega
  rw [h1, h2]
  have h3 : min PER_JOB_MAX (k + 60 + 1 - (k + 1)) = 60 := by
    unfold PER_JOB_MAX
    omega
  rw [h3]

/-- C2: a single enabled, error-free job on schedule `* * * * *`, over a
one-hour window whose from and to bounds are each offset 30 seconds past a
minute boundary, produces exactly 60 occurrences in strictly ascending
timestamp order, for every limit of at least 60. -/
theorem spec_c2 (k lim : Nat) (hlim : 60 ≤ lim) :
    ((occurrences_for_window
        [⟨1, "* * * * * /cmd", "* * * * *", "/cmd", true, none, none⟩]
        (60 * k + 30) (60 * k + 3630) lim false false).2.2.1.length = 60) ∧
    (((occurrences_for_window
        [⟨1, "* * * * * /cmd", "* * * * *", "/cmd", true, none, none⟩]
        (60 * k + 30) (60 * k + 3630) lim false false).2.2.1.map
          (fun o => o.at')).Pairwise (· < ·)) := by
  have hpairs : occ_pairs
      [⟨1, "* * * * * /cmd", "* * * * *", "/cmd", true, none, none⟩]
      (60 * k + 30) (60 * k + 3630) false false =
      (List.range' (k + 1) 60).map
        (fun m => (60 * m, ⟨"* * * * *", "/cmd", true, 60 * m, none⟩)) := by
    unfold occ_pairs
    have he : eligible_jobs
        [⟨1, "* * * * * /cmd", "* * * * *", "/cmd", true, none, none⟩] false =
        [⟨1, "* * * * * /cmd", "* * * * *", "/cmd", true, none, none⟩] := by decide
    simp only [apply_noisy_filter, if_neg Bool.false_ne_true, he]
    simp [iter_schedule_star_window, List.map_map]
  have hsorted : ((List.range' (k + 1) 60).map
      (fun m => ((60 * m : Nat), (⟨"* * * * *", "/cmd", true, 60 * m, none⟩ : Occurrence)))).Pairwise
      (fun a b => a.1 ≤ b.1) := by
    refine List.Pairwise.map _ (fun a b hab => ?_) (List.pairwise_lt_range' (k + 1) 60)
    simpa using Nat.le_of_lt (by omega : 60 * a < 60 * b)
  have hIS : (occ_pairs
      [⟨1, "* * * * * /cmd", "* * * * *", "/cmd", true, none, none⟩]
      (60 * k + 30) (60 * k + 3630) false false).insertionSort (fun a b => a.1 ≤ b.1) =
      occ_pairs [⟨1, "* * * * * /cmd", "* * * * *", "/cmd", true, none, none⟩]
      (60 * k + 30) (60 * k + 3630) false false := by
    rw [hpairs]
    exact List.Sorted.insertionSort_eq hsorted
  have hocc : (occurrences_for_window
      [⟨1, "* * * * * /cmd", "* * * * *", "/cmd", true, none, none⟩]
      (60 * k + 30) (60 * k + 3630) lim false false).2.2.1 =
      (List.range' (k + 1) 60).map
        (fun m => (⟨"* * * * *", "/cmd", true, 60 * m, none⟩ : Occurrence)) := by
    have hlen : ((List.range' (k + 1) 60).map
        (fun m => ((60 * m : Nat),
          (⟨"* * * * *", "/cmd", true, 60 * m, none⟩ : Occurrence)))).length ≤ lim := by
      simpa using hlim
    simp only [occurrences_for_window]
    rw [hIS, hpairs]
    rw [List.take_of_length_le hlen]
    simp [List.map_map]
  rw [hocc]
  constructor
  · simp
  · simp only [List.map_map]
    refine List.Pairwise.map _ (fun a b hab => ?_) (List.pairwise_lt_range' (k + 1) 60)
    simpa using (by omega : 60 * a < 60 * b)

/-- C2 witness: the window from 2024-01-01T00:00:30Z to 2024-01-01T01:00:30Z
with limit 1000. -/
theorem spec_c2_witness :
    60 ≤ 1000 ∧
    (((occurrences_for_window
        [⟨1, "* * * * * /cmd", "* * * * *", "/cmd", true, none, none⟩]
        (60 * 525600 + 30) (60 * 525600 + 3630) 1000 false false).2.2.1.length = 60) ∧
    (((occurrences_for_window
        [⟨1, "* * * * * /cmd", "* * * * *", "/cmd", true, none, none⟩]
        (60 * 525600 + 30) (60 * 525600 + 3630) 1000 false false).2.2.1.map
          (fun o => o.at')).Pairwise (· < ·))) :=
  ⟨by norm_num, spec_c2 525600 1000 (by norm_num)⟩

/-- Stability of the pair sort: the elements carrying any fixed timestamp
appear in the sorted list exactly as they appear in the merged list. -/
theorem insertionSort_filter_ts (l : List (Nat × Occurrence)) (ts : Nat) :
    (l.insertionSort (fun a b => a.1 ≤ b.1)).filter (fun p => p.1 == ts) =
      l.filter (fun p => p.1 == ts) := by
  have hperm : List.Perm
      ((l.insertionSort (fun a b => a.1 ≤ b.1)).filter (fun p => p.1 == ts))
      (l.filter (fun p => p.1 == ts)) :=
    (List.perm_insertionSort (fun a b => a.1 ≤ b.1) l).filter _
  have hpw : (l.filter (fun p => p.1 == ts)).Pairwise
      (fun a b : Nat × Occurrence => a.1 ≤ b.1) := by
    rw [List.pairwise_iff_forall_sublist]
    intro a b hsub
    have ha : a ∈ l.filter (fun p => p.1 == ts) := hsub.subset (by simp)
    have hb : b ∈ l.filter (fun p => p.1 == ts) := hsub.subset (by simp)
    have ha2 : a.1 = ts := by simpa using List.of_mem_filter ha
    have hb2 : b.1 = ts := by simpa using List.of_mem_filter hb
    omega
  have hsub : List.Sublist (l.filter (fun p => p.1 == ts))
      (l.insertionSort (fun a b => a.1 ≤ b.1)) :=
    List.sublist_insertionSort hpw (List.filter_sublist l)
  have hsub2 := hsub.filter (fun p => p.1 == ts)
  rw [List.filter_filter] at hsub2
  simp only [Bool.and_self] at hsub2
  exact (hsub2.eq_of_length hperm.length_eq.symm).symm

/-- C6: the occurrence list is obtained from the merged per-job
`(timestamp, record)` pairs by a stable ascending sort on the timestamp
followed by truncation to `limit`: the sorted list is a permutation of the
merged pairs, it is sorted by timestamp, ties keep the merged (original job)
order, and the output is its `limit`-prefix's record component. -/
theorem spec_c6 (jobs : List ParsedJob) (f t lim : Nat) (incl hide : Bool) :
    ((occurrences_for_window jobs f t lim incl hide).2.2.1 =
      (((occ_pairs jobs f t incl hide).insertionSort (fun a b => a.1 ≤ b.1)).take lim).map
        (fun p => p.2)) ∧
    ((occ_pairs jobs f t incl hide).insertionSort (fun a b => a.1 ≤ b.1)).Perm
      (occ_pairs jobs f t incl hide) ∧
    ((occ_pairs jobs f t incl hide).insertionSort (fun a b => a.1 ≤ b.1)).Pairwise
      (fun a b => a.1 ≤ b.1) ∧
    (∀ ts : Nat,
      ((occ_pairs jobs f t incl hide).insertionSort (fun a b => a.1 ≤ b.1)).filter
          (fun p => p.1 == ts) =
        (occ_pairs jobs f t incl hide).filter (fun p => p.1 == ts)) := by
  refine ⟨by simp only [occurrences_for_window], List.perm_insertionSort _ _, ?_,
    fun ts => insertionSort_filter_ts _ ts⟩
  haveI : IsTotal (Nat × Occurrence) (fun a b => a.1 ≤ b.1) :=
    ⟨fun a b => Nat.le_total a.1 b.1⟩
  haveI : IsTrans (Nat × Occurrence) (fun a b => a.1 ≤ b.1) :=
    ⟨fun _ _ _ hab hbc => Nat.le_trans hab hbc⟩
  exact List.sorted_insertionSort _ _

/-- The heatmap key list and the occurrence pair list enumerate the same
instants, job by job, so they have the same length. -/
theorem heat_keys_length (jobs : List ParsedJob) (f t : Nat) (incl hide : Bool) :
    (heat_keys jobs f t incl hide).length = (occ_pairs jobs f t incl hide).length := by
  simp only [heat_keys, occ_pairs, List.flatMap_def, List.length_flatten, List.map_map]
  congr 1
  refine List.map_congr_left (fun j _ => ?_)
  simp

/-- C7: for every job list, window and flag values, the heatmap cell counts
sum to the length of the occurrence list whenever the limit does not truncate
(limit at least the number of merged pairs). -/
theorem spec_c7 (jobs : List ParsedJob) (f t lim : Nat) (incl hide : Bool)
    (h : (occ_pairs jobs f t incl hide).length ≤ lim) :
    ((heatmap_for_window jobs f t incl hide).2.2.1.map (fun c => c.count)).sum =
      (occurrences_for_window jobs f t lim incl hide).2.2.1.length := by
  have hL : ((heatmap_for_window jobs f t incl hide).2.2.1.map (fun c => c.count)).sum =
      (heat_keys jobs f t incl hide).length := by
    simp only [heatmap_for_window, List.map_map]
    have hperm : List.Perm
        ((heat_keys jobs f t incl hide).dedup.insertionSort
          (fun a b => a.1 < b.1 ∨ (a.1 = b.1 ∧ a.2 ≤ b.2)))
        (heat_keys jobs f t incl hide).dedup :=
      List.perm_insertionSort _ _
    have hcount : ∀ k : Nat × Nat,
        @List.count (Nat × Nat) instBEqProd k (heat_keys jobs f t incl hide) =
          @List.count (Nat × Nat) instBEqOfDecidableEq k (heat_keys jobs f t incl hide) := by
      intro k
      unfold List.count
      refine List.countP_congr (fun x _ => ?_)
      cases x
      cases k
      simp [instBEqProd, instBEqOfDecidableEq]
    have hsum := (hperm.map (fun k => (heat_keys jobs f t incl hide).count k)).sum_eq
    simp only [hcount] at hsum
    simpa [Function.comp, hcount] using
      hsum.trans (List.sum_map_count_dedup_eq_length (heat_keys jobs f t incl hide))
  have hR : (occurrences_for_window jobs f t lim incl hide).2.2.1.length =
      (occ_pairs jobs f t incl hide).length := by
    simp only [occurrences_for_window, List.length_map, List.length_take,
      List.length_insertionSort]
    omega
  rw [hL, hR, heat_keys_length]

/-- C7 witness: a single hourly job over a one-hour window with limit 500
(no truncation). -/
theorem spec_c7_witness :
    ((occ_pairs [⟨1, "0 * * * * /hourly", "0 * * * *", "/hourly", true, none, none⟩]
        (JAN1_2024 + 30) (JAN1_2024 + 3630) false false).length ≤ 500) ∧
    ((heatmap_for_window [⟨1, "0 * * * * /hourly", "0 * * * *", "/hourly", true, none, none⟩]
        (JAN1_2024 + 30) (JAN1_2024 + 3630) false false).2.2.1.map (fun c => c.count)).sum =
      (occurrences_for_window [⟨1, "0 * * * * /hourly", "0 * * * *", "/hourly", true, none, none⟩]
        (JAN1_2024 + 30) (JAN1_2024 + 3630) 500 false false).2.2.1.length :=
  ⟨by decide,
   spec_c7 [⟨1, "0 * * * * /hourly", "0 * * * *", "/hourly", true, none, none⟩]
     (JAN1_2024 + 30) (JAN1_2024 + 3630) 500 false false (by decide)⟩

/-- The daily-at-01:00 schedule fires twice in the 2-day reference window, so
it is not noisy. -/
theorem is_noisy_daily1 : is_noisy "0 1 * * *" = false := by decide

/-- For a job of the eligible list, membership of its schedule in the noisy
set coincides with its own noisiness (the set is built from the same list). -/
theorem contains_noisy {eligible : List ParsedJob} {j : ParsedJob} (hj : j ∈ eligible) :
    (noisy_schedules eligible).contains j.schedule = is_noisy j.schedule := by
  by_cases hn : is_noisy j.schedule = true
  · rw [hn]
    have hmem : j.schedule ∈ noisy_schedules eligible := by
      unfold noisy_schedules
      rw [List.mem_dedup]
      exact List.mem_map_of_mem _ (List.mem_filter.mpr ⟨hj, hn⟩)
    exact List.elem_iff.mpr hmem
  · have hn' : is_noisy j.schedule = false := by simpa using hn
    rw [hn']
    by_contra hc
    have hc' : (noisy_schedules eligible).contains j.schedule = true := by
      simpa using hc
    have hmem := List.elem_iff.mp hc'
    unfold noisy_schedules at hmem
    rw [List.mem_dedup] at hmem
    obtain ⟨j2, hj2, heq⟩ := List.mem_map.mp hmem
    have hj3 := (List.mem_filter.mp hj2).2
    rw [heq, hn'] at hj3
    exact Bool.false_ne_true hj3

/-- Eligibility commutes with any job-level pre-filter. -/
theorem eligible_filter_comm (jobs : List ParsedJob) (r : ParsedJob → Bool) (incl : Bool) :
    eligible_jobs (jobs.filter r) incl = (eligible_jobs jobs incl).filter r := by
  unfold eligible_jobs
  rw [List.filter_filter, List.filter_filter]
  exact List.filter_congr (fun j _ => by rw [Bool.and_comm])

/-- With `hide_noisy = true`, the surviving jobs are exactly the eligible jobs
of the input pre-filtered to the non-noisy schedules. -/
theorem eligible_hide_noisy (jobs : List ParsedJob) (incl : Bool) :
    (apply_noisy_filter (eligible_jobs jobs incl) true).1 =
      eligible_jobs (jobs.filter fun j => !(is_noisy j.schedule)) incl := by
  rw [eligible_filter_comm]
  simp only [apply_noisy_filter, if_true]
  refine List.filter_congr (fun j hj => ?_)
  rw [contains_noisy hj]

/-- The merged pair list with `hide_noisy = true` equals the one obtained by
deleting the noisy-schedule jobs up front (before any sorting or limiting). -/
theorem occ_pairs_hide_noisy (jobs : List ParsedJob) (f t : Nat) (incl : Bool) :
    occ_pairs jobs f t incl true =
      occ_pairs (jobs.filter fun j => !(is_noisy j.schedule)) f t incl false := by
  unfold occ_pairs
  rw [eligible_hide_noisy]
  rfl

/-- Heatmap analogue of `occ_pairs_hide_noisy`. -/
theorem heat_keys_hide_noisy (jobs : List ParsedJob) (f t : Nat) (incl : Bool) :
    heat_keys jobs f t incl true =
      heat_keys (jobs.filter fun j => !(is_noisy j.schedule)) f t incl false := by
  unfold heat_keys
  rw [eligible_hide_noisy]
  rfl

/-- C5: with `hideNoisy = true`, (1, 2) both the occurrence generator and the
heatmap aggregator report `filteredNoisyCount` equal to the number of
distinct noisy schedule strings among the eligible jobs; (3) no returned
occurrence carries a noisy schedule; (4, 5) both outputs coincide with the
outputs on the job list pre-filtered to the non-noisy schedules (so the
exclusion happens before the limit is applied); and (6) with two jobs sharing
the noisy schedule `* * * * *` plus one quiet job, the count is 1 (distinct
noisy schedules) although 2 jobs are excluded. -/
theorem spec_c5 :
    (∀ (jobs : List ParsedJob) (f t lim : Nat) (incl : Bool),
        (occurrences_for_window jobs f t lim incl true).2.2.2 =
          (((eligible_jobs jobs incl).map (fun j => j.schedule)).filter
              is_noisy).dedup.length) ∧
    (∀ (jobs : List ParsedJob) (f t : Nat) (incl : Bool),
        (heatmap_for_window jobs f t incl true).2.2.2.2 =
          (((eligible_jobs jobs incl).map (fun j => j.schedule)).filter
              is_noisy).dedup.length) ∧
    (∀ (jobs : List ParsedJob) (f t lim : Nat) (incl : Bool) (o : Occurrence),
        o ∈ (occurrences_for_window jobs f t lim incl true).2.2.1 →
        is_noisy o.schedule = false) ∧
    (∀ (jobs : List ParsedJob) (f t lim : Nat) (incl : Bool),
        (occurrences_for_window jobs f t lim incl true).2.2.1 =
          (occurrences_for_window (jobs.filter fun j => !(is_noisy j.schedule))
            f t lim incl false).2.2.1) ∧
    (∀ (jobs : List ParsedJob) (f t : Nat) (incl : Bool),
        (heatmap_for_window jobs f t incl true).2.2.1 =
          (heatmap_for_window (jobs.filter fun j => !(is_noisy j.schedule))
            f t incl false).2.2.1) ∧
    ((occurrences_for_window
        [⟨1, "* * * * * /a", "* * * * *", "/a", true, none, none⟩,
         ⟨2, "* * * * * /b", "* * * * *", "/b", true, none, none⟩,
         ⟨3, "0 1 * * * /d", "0 1 * * *", "/d", true, none, none⟩]
        (JAN1_2024 + 30) (JAN1_2024 + 3630) 500 false true).2.2.2 = 1 ∧
      (([⟨1, "* * * * * /a", "* * * * *", "/a", true, none, none⟩,
         ⟨2, "* * * * * /b", "* * * * *", "/b", true, none, none⟩,
         ⟨3, "0 1 * * * /d", "0 1 * * *", "/d", true, none, none⟩] :
            List ParsedJob).filter (fun j => is_noisy j.schedule)).length = 2) := by
  have hcount : ∀ (jobs : List ParsedJob) (incl : Bool),
      (apply_noisy_filter (eligible_jobs jobs incl) true).2 =
        (((eligible_jobs jobs incl).map (fun j => j.schedule)).filter
            is_noisy).dedup.length := by
    intro jobs incl
    simp only [apply_noisy_filter, if_true, noisy_schedules]
    rw [List.filter_map]
    rfl
  have hfilABD : ([⟨1, "* * * * * /a", "* * * * *", "/a", true, none, none⟩,
       ⟨2, "* * * * * /b", "* * * * *", "/b", true, none, none⟩,
       ⟨3, "0 1 * * * /d", "0 1 * * *", "/d", true, none, none⟩] :
          List ParsedJob).filter (fun j => is_noisy j.schedule) =
      [⟨1, "* * * * * /a", "* * * * *", "/a", true, none, none⟩,
       ⟨2, "* * * * * /b", "* * * * *", "/b", true, none, none⟩] := by
    simp [List.filter, is_noisy_star, is_noisy_daily1]
  refine ⟨fun jobs f t lim incl => hcount jobs incl,
          fun jobs f t incl => hcount jobs incl, ?_, ?_, ?_, ?_, ?_⟩
  · intro jobs f t lim incl o ho
    obtain ⟨p, hp, rfl⟩ := mem_occurrences ho
    obtain ⟨j, hj, hdt, hrec⟩ := mem_occ_pairs hp
    have hj1 : j ∈ (eligible_jobs jobs incl).filter
        (fun j => !((noisy_schedules (eligible_jobs jobs incl)).contains j.schedule)) := by
      simpa [apply_noisy_filter] using hj
    have h2 := List.mem_filter.mp hj1
    have hcont := h2.2
    rw [contains_noisy h2.1] at hcont
    rw [hrec]
    simpa using hcont
  · intro jobs f t lim incl
    simp only [occurrences_for_window, occ_pairs_hide_noisy]
  · intro jobs f t incl
    simp only [heatmap_for_window, heat_keys_hide_noisy]
  · have huniv : ∀ (jobs : List ParsedJob) (f t lim : Nat) (incl : Bool),
        (occurrences_for_window jobs f t lim incl true).2.2.2 =
          (((eligible_jobs jobs incl).map (fun j => j.schedule)).filter
              is_noisy).dedup.length := fun jobs f t lim incl => hcount jobs incl
    rw [huniv]
    have he : eligible_jobs
        [⟨1, "* * * * * /a", "* * * * *", "/a", true, none, none⟩,
         ⟨2, "* * * * * /b", "* * * * *", "/b", true, none, none⟩,
         ⟨3, "0 1 * * * /d", "0 1 * * *", "/d", true, none, none⟩] false =
        [⟨1, "* * * * * /a", "* * * * *", "/a", true, none, none⟩,
         ⟨2, "* * * * * /b", "* * * * *", "/b", true, none, none⟩,
         ⟨3, "0 1 * * * /d", "0 1 * * *", "/d", true, none, none⟩] := by decide
    rw [he]
    have hmap : ([⟨1, "* * * * * /a", "* * * * *", "/a", true, none, none⟩,
         ⟨2, "* * * * * /b", "* * * * *", "/b", true, none, none⟩,
         ⟨3, "0 1 * * * /d", "0 1 * * *", "/d", true, none, none⟩] :
            List ParsedJob).map (fun j => j.schedule) =
        ["* * * * *", "* * * * *", "0 1 * * *"] := by decide
    rw [hmap]
    have hfilS : (["* * * * *", "* * * * *", "0 1 * * *"].filter is_noisy) =
        ["* * * * *", "* * * * *"] := by
      simp [List.filter, is_noisy_star, is_noisy_daily1]
    rw [hfilS]
    decide
  · rw [hfilABD]
    rfl

/-- C5 witness: the quiet job's occurrence is returned under
`hideNoisy = true` and its schedule is indeed classified quiet. -/
theorem spec_c5_witness :
    ((⟨"0 1 * * *", "/d", true, JAN1_2024 + 3600, none⟩ : Occurrence) ∈
      (occurrences_for_window
        [⟨1, "* * * * * /a", "* * * * *", "/a", true, none, none⟩,
         ⟨2, "* * * * * /b", "* * * * *", "/b", true, none, none⟩,
         ⟨3, "0 1 * * * /d", "0 1 * * *", "/d", true, none, none⟩]
        (JAN1_2024 + 30) (JAN1_2024 + 3630) 500 false true).2.2.1) ∧
    is_noisy (⟨"0 1 * * *", "/d", true, JAN1_2024 + 3600, none⟩ : Occurrence).schedule =
      false := by
  have hmem : (⟨"0 1 * * *", "/d", true, JAN1_2024 + 3600, none⟩ : Occurrence) ∈
      (occurrences_for_window
        [⟨1, "* * * * * /a", "* * * * *", "/a", true, none, none⟩,
         ⟨2, "* * * * * /b", "* * * * *", "/b", true, none, none⟩,
         ⟨3, "0 1 * * * /d", "0 1 * * *", "/d", true, none, none⟩]
        (JAN1_2024 + 30) (JAN1_2024 + 3630) 500 false true).2.2.1 := by
    rw [spec_c5.2.2.2.1
      [⟨1, "* * * * * /a", "* * * * *", "/a", true, none, none⟩,
       ⟨2, "* * * * * /b", "* * * * *", "/b", true, none, none⟩,
       ⟨3, "0 1 * * * /d", "0 1 * * *", "/d", true, none, none⟩]
      (JAN1_2024 + 30) (JAN1_2024 + 3630) 500 false]
    have hfil : ([⟨1, "* * * * * /a", "* * * * *", "/a", true, none, none⟩,
        ⟨2, "* * * * * /b", "* * * * *", "/b", true, none, none⟩,
        ⟨3, "0 1 * * * /d", "0 1 * * *", "/d", true, none, none⟩] :
          List ParsedJob).filter (fun j => !(is_noisy j.schedule)) =
        [⟨3, "0 1 * * * /d", "0 1 * * *", "/d", true, none, none⟩] := by
      simp [List.filter, is_noisy_star, is_noisy_daily1]
    rw [hfil]
    decide
  exact ⟨hmem,
    spec_c5.2.2.1
      [⟨1, "* * * * * /a", "* * * * *", "/a", true, none, none⟩,
       ⟨2, "* * * * * /b", "* * * * *", "/b", true, none, none⟩,
       ⟨3, "0 1 * * * /d", "0 1 * * *", "/d", true, none, none⟩]
      (JAN1_2024 + 30) (JAN1_2024 + 3630) 500 false
      ⟨"0 1 * * *", "/d", true, JAN1_2024 + 3600, none⟩ hmem⟩

/-- A job recorded by the disabled-line branch is the only way to get
`enabled = false`, and that branch always sets `error = none`. -/
theorem parse_line_disabled (i : Nat) (line : String) (j : ParsedJob)
    (hj : j ∈ (parse_line i line).1) (hen : j.enabled = false) : j.error = none := by
  simp only [parse_line] at hj
  split at hj
  · simp at hj
  · split at hj
    · simp at hj
    · split at hj
      · split at hj
        · simp at hj
        · split at hj
          · simp at hj
          · simp at hj
            rw [hj]
      · split at hj
        · simp at hj
        · split at hj
          · simp at hj
            rw [hj] at hen
            simp at hen
          · simp at hj
            rw [hj] at hen
            simp at hen

/-- C8: for every input text, every parsed job with `enabled = false` has
`error = none` (commented job lines are never recorded with an error), and
the commented alias-less line `# daily /usr/bin/task` is discarded as prose:
it yields no job and no warning. -/
theorem spec_c8 :
    (∀ (text : String) (j : ParsedJob), j ∈ (parse_crontab text).jobs →
        j.enabled = false → j.error = none) ∧
    parse_crontab "# daily /usr/bin/task" = ⟨[], []⟩ := by
  refine ⟨?_, by decide⟩
  intro text j hj hen
  unfold parse_crontab at hj
  simp only [List.mem_flatMap] at hj
  obtain ⟨p, _, hj2⟩ := hj
  exact parse_line_disabled p.1 p.2 j hj2 hen

/-- C8 witness: the commented-out job line parses to a disabled job, whose
`error` is `none` by the theorem. -/
theorem spec_c8_witness :
    ((⟨1, "# */5 * * * * /cmd", "*/5 * * * *", "/cmd", false, none, none⟩ : ParsedJob) ∈
      (parse_crontab "# */5 * * * * /cmd").jobs) ∧
    (⟨1, "# */5 * * * * /cmd", "*/5 * * * *", "/cmd", false, none, none⟩ : ParsedJob).enabled
      = false ∧
    (⟨1, "# */5 * * * * /cmd", "*/5 * * * *", "/cmd", false, none, none⟩ : ParsedJob).error
      = none :=
  ⟨by decide, by decide,
   spec_c8.1 "# */5 * * * * /cmd"
     ⟨1, "# */5 * * * * /cmd", "*/5 * * * *", "/cmd", false, none, none⟩
     (by decide) (by decide)⟩

/-- C9: a single uncommented line whose extraction succeeds but whose
schedule fails validation is recorded as one job with `enabled = true` and the
error set, together with exactly one warning `Line 1: <error>`, where the
error reads `Invalid cron expression: <q><schedule><q>`. -/
theorem spec_c9 (line sched cmd err : String)
    (hline : py_splitlines line = [line])
    (hne : ¬(pyStrip line = ""))
    (henv : is_env_var (pyStrip line) = false)
    (hcom : (pyStrip line).toList.head? ≠ some (Char.ofNat 35))
    (hparse : try_parse_cron_line (pyStrip line) = some (sched, cmd))
    (hval : validate_schedule sched = some err) :
    parse_crontab line =
      ⟨[⟨1, line, sched, cmd, true, some err, none⟩], ["Line 1: " ++ err]⟩ ∧
    err = "Invalid cron expression: " ++ quoteChar ++ sched ++ quoteChar := by
  have herr : err = "Invalid cron expression: " ++ quoteChar ++ sched ++ quoteChar := by
    unfold validate_schedule at hval
    split at hval
    · exact absurd hval (by simp)
    · split at hval
      · exact (Option.some.inj hval).symm
      · exact absurd hval (by simp)
  have hpl : parse_line 1 line =
      ([⟨1, line, sched, cmd, true, some err, none⟩], ["Line 1: " ++ err]) := by
    have hpre : "Line " ++ toString 1 ++ ": " = "Line 1: " := rfl
    simp only [parse_line]
    rw [if_neg hne]
    rw [if_neg (by simp [henv])]
    rw [if_neg (by simpa using hcom)]
    simp only [hparse, hval]
    rw [hpre]
  refine ⟨?_, herr⟩
  unfold parse_crontab
  rw [hline]
  simp [List.enumFrom, hpl]

/-- C9 witness: the line `99 * * * * /cmd` (minute 99 out of range) yields
one enabled job with the error set and exactly one warning. -/
theorem spec_c9_witness :
    validate_schedule "99 * * * *" =
      some ("Invalid cron expression: " ++ quoteChar ++ "99 * * * *" ++ quoteChar) ∧
    parse_crontab "99 * * * * /cmd" =
      ⟨[⟨1, "99 * * * * /cmd", "99 * * * *", "/cmd", true,
          some ("Invalid cron expression: " ++ quoteChar ++ "99 * * * *" ++ quoteChar), none⟩],
        ["Line 1: " ++
          ("Invalid cron expression: " ++ quoteChar ++ "99 * * * *" ++ quoteChar)]⟩ :=
  ⟨by decide,
   (spec_c9 "99 * * * * /cmd" "99 * * * *" "/cmd"
      ("Invalid cron expression: " ++ quoteChar ++ "99 * * * *" ++ quoteChar)
      (by decide) (by decide) (by decide) (by decide) (by decide) (by decide)).1⟩
